import Mathlib

/-!
Shallow embedding of the handwriting-recognition pipeline of this repository:
the pixel filter loop of `preprocessImage` (src/components/ocr/utils.ts),
the connected-component segmenter `segmentDigits` (digitSegmentation),
the MNIST classifier service (`loadMNISTModel`, `predictDigit`, `disposeModel`),
and the recognition orchestrator of `HandwrittenDigitRecognizer`.

Numeric conventions: JavaScript numbers are embedded as exact rationals (ℚ);
pixel coordinates as integers (ℤ, since the flood fill pushes coordinates such
as `x - 1` before bounds-checking them); array indices as naturals.
-/


/-- One RGBA sample of an `ImageData` buffer.  The JS code reads the flat
`data` array four bytes at a time; we model each group of four as one record. -/
structure Pixel where
  r : ℚ
  g : ℚ
  b : ℚ
  a : ℚ
deriving DecidableEq, Repr

/-- The options object of `preprocessImage` in src/components/ocr/utils.ts. -/
structure FilterConfig where
  scale : ℚ
  grayscale : Bool
  contrast : ℚ
  brightness : ℚ
  sharpen : Bool
  threshold : Option ℚ
deriving DecidableEq, Repr

/-- Body of the per-pixel filter loop of `preprocessImage`
(utils.ts, the `for (let i = 0; i < data.length; i += 4)` loop):
grayscale replacement, contrast and brightness, clamping, then the optional
binarization; the alpha sample `data[i + 3]` is never written. -/
def applyFilters (cfg : FilterConfig) (p : Pixel) : Pixel :=
  let gray := 0.299 * p.r + 0.587 * p.g + 0.114 * p.b
  let r1 := if cfg.grayscale then gray else p.r
  let g1 := if cfg.grayscale then gray else p.g
  let b1 := if cfg.grayscale then gray else p.b
  let r2 := ((r1 - 128) * cfg.contrast + 128) * cfg.brightness
  let g2 := ((g1 - 128) * cfg.contrast + 128) * cfg.brightness
  let b2 := ((b1 - 128) * cfg.contrast + 128) * cfg.brightness
  let r3 := max 0 (min 255 r2)
  let g3 := max 0 (min 255 g2)
  let b3 := max 0 (min 255 b2)
  match cfg.threshold with
  | some t =>
      let avg := (r3 + g3 + b3) / 3
      let v : ℚ := if avg > t then 255 else 0
      ⟨v, v, v, p.a⟩
  | none => ⟨r3, g3, b3, p.a⟩

/-- The whole filter loop, over every pixel of the buffer. -/
def preprocessFilterLoop (cfg : FilterConfig) (ps : List Pixel) : List Pixel :=
  ps.map (applyFilters cfg)

/-- ITU-R BT.601 luma of a pixel, as computed by the grayscale branch. -/
def lumaOf (p : Pixel) : ℚ :=
  0.299 * p.r + 0.587 * p.g + 0.114 * p.b

/-- The contrast-then-brightness formula exactly as the specification words it:
`clamp(((v - 128) * contrast + 128) * brightness, 0, 255)`.
Kept separate from `applyFilters` so the code can be compared against it. -/
def specContrastBrightness (contrast brightness v : ℚ) : ℚ :=
  max 0 (min 255 (((v - 128) * contrast + 128) * brightness))

/-- The value a channel holds after the grayscale / contrast / brightness /
clamp stages, before the optional threshold overwrite. -/
def cbChannel (cfg : FilterConfig) (v : ℚ) : ℚ :=
  max 0 (min 255 (((v - 128) * cfg.contrast + 128) * cfg.brightness))

/-- The average the threshold branch compares against `threshold`. -/
def specAvg (cfg : FilterConfig) (p : Pixel) : ℚ :=
  let r1 := if cfg.grayscale then lumaOf p else p.r
  let g1 := if cfg.grayscale then lumaOf p else p.g
  let b1 := if cfg.grayscale then lumaOf p else p.b
  (cbChannel cfg r1 + cbChannel cfg g1 + cbChannel cfg b1) / 3

/-- An `ImageData` raster: width, height and the row-major RGBA samples.
`data.length` is `width * height` pixels (four bytes each in the JS buffer). -/
structure ImageData where
  width : ℕ
  height : ℕ
  data : List Pixel
deriving DecidableEq, Repr

/-- `data[(y * width + x) * 4 ..]`, the pixel at raster position `(x, y)`. -/
def pixelAt (img : ImageData) (x y : ℕ) : Pixel :=
  img.data.getD (y * img.width + x) ⟨0, 0, 0, 0⟩

/-- `isForeground` of `segmentDigits`: the red channel is below 128. -/
def isForeground (img : ImageData) (x y : ℕ) : Bool :=
  decide ((pixelAt img x y).r < 128)

/-- `isForeground` lifted to the signed coordinates the flood-fill stack holds;
only ever consulted after the bounds check, where both coordinates are
nonnegative. -/
def isForegroundZ (img : ImageData) (x y : ℤ) : Bool :=
  isForeground img x.toNat y.toNat

/-- Integer bounding box, as in digitSegmentation. -/
structure BoundingBox where
  x : ℤ
  y : ℤ
  width : ℤ
  height : ℤ
deriving DecidableEq, Repr

/-- What the flood-fill loop of `floodFill` has accumulated when its stack
empties: the visited marks plus the component extent and pixel count. -/
structure FFResult where
  visited : Finset ℕ
  minX : ℤ
  maxX : ℤ
  minY : ℤ
  maxY : ℤ
  count : ℕ
deriving DecidableEq

/-- The eight neighbours pushed for `(x, y)`, listed in the order the JS
stack (push at the end, pop from the end) will pop them: the code pushes
`(x+1,y), (x-1,y), (x,y+1), (x,y-1), (x+1,y+1), (x-1,y-1), (x+1,y-1),
(x-1,y+1)`, so `(x-1,y+1)` is on top. -/
def neighbors (x y : ℤ) : List (ℤ × ℤ) :=
  [(x - 1, y + 1), (x + 1, y - 1), (x - 1, y - 1), (x + 1, y + 1),
   (x, y - 1), (x, y + 1), (x - 1, y), (x + 1, y)]

/-- The `while (stack.length > 0)` loop of `floodFill`.  Each iteration pops
one coordinate; out-of-bounds, already-visited and background coordinates are
skipped, a fresh foreground pixel is marked visited, counted, folded into the
extent, and its eight neighbours are pushed.  The loop is fuel-indexed to make
it structurally recursive (hence kernel-computable); every iteration pops one
entry and at most `width * height` iterations can push (8 entries each), so
any fuel of at least `1 + 9 * width * height` exceeds the true iteration
count and the out-of-fuel fallback is never reached (`ffLoop_fuel_stable`
below makes this formal). -/
def ffLoop (img : ImageData) : ℕ → List (ℤ × ℤ) → Finset ℕ →
    ℤ → ℤ → ℤ → ℤ → ℕ → FFResult
  | 0, _, visited, minX, maxX, minY, maxY, cnt =>
      ⟨visited, minX, maxX, minY, maxY, cnt⟩
  | _ + 1, [], visited, minX, maxX, minY, maxY, cnt =>
      ⟨visited, minX, maxX, minY, maxY, cnt⟩
  | fuel + 1, (x, y) :: rest, visited, minX, maxX, minY, maxY, cnt =>
      if x < 0 ∨ (img.width : ℤ) ≤ x ∨ y < 0 ∨ (img.height : ℤ) ≤ y then
        ffLoop img fuel rest visited minX maxX minY maxY cnt
      else if (y * img.width + x).toNat ∈ visited ∨ ¬ isForegroundZ img x y then
        ffLoop img fuel rest visited minX maxX minY maxY cnt
      else
        ffLoop img fuel (neighbors x y ++ rest)
          (insert (y * img.width + x).toNat visited)
          (min minX x) (max maxX x) (min minY y) (max maxY y) (cnt + 1)

/-- Fuel that provably exceeds the flood-fill loop's iteration count. -/
def ffFuel (img : ImageData) : ℕ :=
  9 * (img.width * img.height) + 1

/-- `floodFill` of digitSegmentation: run the stack loop from the seed, then
reject the component as noise (`pixelCount < 50`), background
(`area > width * height * 0.9`) or too thin (either dimension `< 10`). -/
def floodFill (img : ImageData) (startX startY : ℕ) (visited : Finset ℕ) :
    Finset ℕ × Option BoundingBox :=
  let st := ffLoop img (ffFuel img) [((startX : ℤ), (startY : ℤ))] visited
    startX startX startY startY 0
  let componentWidth := st.maxX - st.minX + 1
  let componentHeight := st.maxY - st.minY + 1
  let area := componentWidth * componentHeight
  if st.count < 50 ∨
      ((area : ℚ) > ((img.width * img.height : ℕ) : ℚ) * 0.9) ∨
      componentWidth < 10 ∨ componentHeight < 10 then
    (st.visited, none)
  else
    (st.visited, some ⟨st.minX, st.minY, componentWidth, componentHeight⟩)

/-- The raster-scan order of the outer double loop (`for y … for x …`):
index `i` of `List.range (width * height)` visits `(i % width, i / width)`. -/
def imageCoords (img : ImageData) : List (ℕ × ℕ) :=
  (List.range (img.width * img.height)).map (fun i => (i % img.width, i / img.width))

/-- The outer scan of `segmentDigits`: at each unvisited foreground pixel run
`floodFill`, collecting the surviving bounding boxes in scan order. -/
def scanLoop (img : ImageData) :
    List (ℕ × ℕ) → Finset ℕ → List BoundingBox → Finset ℕ × List BoundingBox
  | [], visited, comps => (visited, comps)
  | (x, y) :: rest, visited, comps =>
      if (y * img.width + x) ∉ visited ∧ isForeground img x y then
        match floodFill img x y visited with
        | (v2, some bbox) => scanLoop img rest v2 (comps ++ [bbox])
        | (v2, none) => scanLoop img rest v2 comps
      else
        scanLoop img rest visited comps

/-- `components.sort((a, b) => a.x - b.x)`: a stable ascending sort on the
left edge.  `List.insertionSort` is stable, matching the JS engine's stable
`Array.prototype.sort`. -/
def sortByX (comps : List BoundingBox) : List BoundingBox :=
  comps.insertionSort (fun a b => a.x ≤ b.x)

/-- The square patch canvas built for one accepted component: the canvas is
`size × size`, filled with white, and the padded source rectangle
`(srcX, srcY, srcW, srcH)` is drawn at offset `(destX, destY)` (the offsets
`(size - paddedWidth) / 2` may be half-integral, hence ℚ).  The record mirrors
the exact sequence of canvas commands issued; rasterisation of the draw is
the platform's. -/
structure Patch where
  width : ℤ
  height : ℤ
  fill : Pixel
  srcX : ℤ
  srcY : ℤ
  srcW : ℤ
  srcH : ℤ
  destX : ℚ
  destY : ℚ
deriving DecidableEq, Repr

/-- The white fill (`ctx.fillStyle = 'white'`). -/
def whitePixel : Pixel := ⟨255, 255, 255, 255⟩

/-- One emitted segment: padded bounding box plus the square patch. -/
structure SegmentedDigit where
  bbox : BoundingBox
  patch : Patch
deriving DecidableEq, Repr

/-- The per-component extraction at the end of `segmentDigits`: pad the box by
5 (left/top clamped at 0, width/height clamped to what remains of the raster),
then build the square white canvas with the padded region centred. -/
def extractSegment (img : ImageData) (bbox : BoundingBox) : SegmentedDigit :=
  let padding : ℤ := 5
  let paddedX := max 0 (bbox.x - padding)
  let paddedY := max 0 (bbox.y - padding)
  let paddedWidth := min ((img.width : ℤ) - paddedX) (bbox.width + padding * 2)
  let paddedHeight := min ((img.height : ℤ) - paddedY) (bbox.height + padding * 2)
  let size := max paddedWidth paddedHeight
  { bbox := ⟨paddedX, paddedY, paddedWidth, paddedHeight⟩
    patch :=
      { width := size, height := size, fill := whitePixel
        srcX := paddedX, srcY := paddedY, srcW := paddedWidth, srcH := paddedHeight
        destX := ((size - paddedWidth : ℤ) : ℚ) / 2
        destY := ((size - paddedHeight : ℤ) : ℚ) / 2 } }

/-- `segmentDigits` of digitSegmentation: scan, flood fill, filter, sort left
to right, extract one square patch per surviving component. -/
def segmentDigits (img : ImageData) : List SegmentedDigit :=
  let scanned := scanLoop img (imageCoords img) ∅ []
  (sortByX scanned.2).map (extractSegment img)

/-- Modelled from the spec's words for claim C7: the component box padded by
5 pixels on every side and then clamped to (intersected with) the raster
bounds. -/
def specPadClamp (img : ImageData) (c : BoundingBox) : BoundingBox :=
  let x1 := max 0 (c.x - 5)
  let y1 := max 0 (c.y - 5)
  let x2 := min ((img.width : ℤ)) (c.x + c.width + 5)
  let y2 := min ((img.height : ℤ)) (c.y + c.height + 5)
  ⟨x1, y1, x2 - x1, y2 - y1⟩

/-- An opaque trained-model handle (`tf.LayersModel`); only its identity and
the forward function the environment attaches to it matter here. -/
abbrev Model := ℕ

/-- `DigitPrediction` of mnistModel: arg-max class, probability × 100, and
the raw probability vector. -/
structure DigitPrediction where
  digit : ℤ
  confidence : ℚ
  probabilities : List ℚ
deriving DecidableEq, Repr

/-- The classifier's external world for single-caller runs: the persisted
model in the store (IndexedDB), the outcome of the create-and-train path, and
each model's forward pass (which may fail). -/
structure ClsEnv where
  stored : Option Model
  trainOutcome : Except String Model
  forward : Model → List ℚ → Except String (List ℚ)

/-- `loadMNISTModel` for one (non-overlapping) call: return the cached handle
if present, else try the store, else create/compile/train/save a new model;
a training failure surfaces as the wrapped initialization error.  Returns the
new cached state together with the call's result. -/
def loadMNISTModel (env : ClsEnv) (s : Option Model) :
    Option Model × Except String Model :=
  match s with
  | some m => (some m, Except.ok m)
  | none =>
      match env.stored with
      | some m => (some m, Except.ok m)
      | none =>
          match env.trainOutcome with
          | Except.ok m => (some m, Except.ok m)
          | Except.error e =>
              (none, Except.error ("Failed to initialize MNIST model: " ++ e))

/-- `disposeModel`: dispose any cached handle and reset the cache to null. -/
def disposeModel (s : Option Model) : Option Model :=
  match s with
  | some _ => none
  | none => none

/-- `Math.max(...probabilities)` (over a nonempty vector). -/
def maxQ : List ℚ → ℚ
  | [] => 0
  | x :: xs => xs.foldl max x

/-- `probabilities.indexOf(Math.max(...probabilities))`: index of the first
occurrence of the maximum. -/
def indexOfMaxQ (l : List ℚ) : ℕ :=
  l.indexOf (maxQ l)

/-- `predictDigit` of mnistModel: `await loadMNISTModel()` — note that this
runs the load-or-train path when no handle is cached — then a forward pass,
arg-max and confidence.  Returns the (possibly newly populated) cache state
with the outcome. -/
def predictDigit (env : ClsEnv) (s : Option Model) (input : List ℚ) :
    Option Model × Except String DigitPrediction :=
  match loadMNISTModel env s with
  | (s2, Except.error e) => (s2, Except.error e)
  | (s2, Except.ok m) =>
      match env.forward m input with
      | Except.error e => (s2, Except.error e)
      | Except.ok probabilities =>
          let digit := indexOfMaxQ probabilities
          let confidence := probabilities.getD digit 0 * 100
          (s2, Except.ok ⟨(digit : ℤ), confidence, probabilities⟩)

/-- Environment for the two-caller race on `loadMNISTModel`: the initially
persisted model and the (distinct) model each successive training run
produces. -/
structure ClsEnv2 where
  storedInit : Option Model
  trained : ℕ → Model

/-- Program counter of one `loadMNISTModel` caller, cut at its await points:
`start` is the `if (model) return model` check; `atLoad` is the pending
`tf.loadLayersModel` of the store; `atTrain` is the create/compile/fit run;
`atSave m` is the pending `save` of the freshly trained `m`; `done m` is the
resolved call. -/
inductive TPC where
  | start
  | atLoad
  | atTrain
  | atSave (m : Model)
  | done (m : Model)
deriving DecidableEq, Repr

/-- Shared state of the two-caller system: the persistent store, the
module-level `model` cache, how many training runs have executed, and each
caller's program counter. -/
structure Sys where
  store : Option Model
  model : Option Model
  trainCount : ℕ
  t0 : TPC
  t1 : TPC
deriving DecidableEq, Repr

/-- One step of one caller.  Mirrors the statement order of the source: the
cache check reads the shared `model`; a successful store load assigns the
cache and resolves; a failed load falls through to training (the code never
re-checks the cache after the initial test); training bumps the run count and
yields a fresh model; saving writes the store, assigns the cache, resolves. -/
def threadStep (env : ClsEnv2) (s : Sys) (pc : TPC) : Sys × TPC :=
  match pc with
  | TPC.start =>
      match s.model with
      | some m => (s, TPC.done m)
      | none => (s, TPC.atLoad)
  | TPC.atLoad =>
      match s.store with
      | some m => ({ s with model := some m }, TPC.done m)
      | none => (s, TPC.atTrain)
  | TPC.atTrain =>
      ({ s with trainCount := s.trainCount + 1 }, TPC.atSave (env.trained s.trainCount))
  | TPC.atSave m =>
      ({ s with store := some m, model := some m }, TPC.done m)
  | TPC.done m => (s, TPC.done m)

/-- Run one scheduler step: `false` steps caller 0, `true` steps caller 1. -/
def schedStep (env : ClsEnv2) (s : Sys) (who : Bool) : Sys :=
  if who then
    let r := threadStep env s s.t1
    { r.1 with t1 := r.2 }
  else
    let r := threadStep env s s.t0
    { r.1 with t0 := r.2 }

/-- Run a whole interleaving. -/
def runSched (env : ClsEnv2) (sched : List Bool) (s : Sys) : Sys :=
  sched.foldl (schedStep env) s

/-- Initial state: store as persisted, no cached model, no trainings, both
callers at their cache check. -/
def initSys (env : ClsEnv2) : Sys :=
  ⟨env.storedInit, none, 0, TPC.start, TPC.start⟩

/-- A schedule that interleaves the two callers so both pass the cache check
and the store load before either training run saves. -/
def racySched : List Bool :=
  [false, true, false, true, false, false, true, true]

/-- A schedule that runs caller 0 to completion before caller 1 starts. -/
def seqSched : List Bool :=
  [false, false, false, false, true, true, true, true]

/-- One entry of `HandwritingResult.digits`. -/
structure DigitResult where
  digit : ℤ
  confidence : ℚ
  bbox : BoundingBox
deriving DecidableEq, Repr

/-- `HandwritingResult` of HandwrittenDigitRecognizer. -/
structure HandwritingResult where
  digits : List DigitResult
  combinedText : String
  processingTime : ℕ
  preprocessedImage : String
deriving DecidableEq, Repr

/-- The per-glyph loop of step 5: each segment is classified inside its own
try/catch; a failure is recorded as digit `-1`, confidence `0`, and the loop
moves on to the next segment. -/
def classifySegments (predict : SegmentedDigit → Except String DigitPrediction) :
    List SegmentedDigit → List DigitResult
  | [] => []
  | s :: rest =>
      (match predict s with
       | Except.ok p => ⟨p.digit, p.confidence, s.bbox⟩
       | Except.error _ => ⟨-1, 0, s.bbox⟩) :: classifySegments predict rest

/-- Step 6: `results.map((r) => (r.digit >= 0 ? r.digit : '?')).join('')`. -/
def combinedText (results : List DigitResult) : String :=
  String.join (results.map (fun r => if r.digit ≥ 0 then toString r.digit else ("?")))

/-- What the `recognize` closure delivers: `onComplete`, `onError`, or
neither (the silent cancellation return). -/
inductive Outcome where
  | completed (r : HandwritingResult)
  | errored (msg : String)
  | silent
deriving DecidableEq, Repr

/-- Environment of one `recognize` run: outcomes of the external await points
(model load, `preprocessImage`, decoding the preprocessed data URL back into
an `ImageData`), the per-glyph classifier, and the wall clock. -/
structure RecEnv where
  loadModel : Except String Unit
  preprocessResult : Except String String
  decodeResult : Except String ImageData
  predict : SegmentedDigit → Except String DigitPrediction
  elapsed : ℕ

/-- Whether the effect cleanup has set `cancelled` by await boundary `k`.
Boundary 1 is the resumption after the model load (the only place the happy
path reads the flag), boundary 2 after preprocessing, boundary 3 after
decoding, boundary `4 + i` after classifying `i` glyphs. -/
def cancelledAt (cancelAt : Option ℕ) (k : ℕ) : Bool :=
  match cancelAt with
  | some c => decide (c ≤ k)
  | none => false

/-- The `recognize` closure of HandwrittenDigitRecognizer.  The flag is
consulted exactly where the source reads `cancelled`: once after the model
load, and in the outer catch; the zero-segments `onError` and the final
`onComplete` are issued without consulting it. -/
def recognize (env : RecEnv) (cancelAt : Option ℕ) : Outcome :=
  match env.loadModel with
  | Except.error e =>
      if cancelledAt cancelAt 1 then Outcome.silent else Outcome.errored e
  | Except.ok _ =>
      if cancelledAt cancelAt 1 then Outcome.silent
      else
        match env.preprocessResult with
        | Except.error e =>
            if cancelledAt cancelAt 2 then Outcome.silent else Outcome.errored e
        | Except.ok url =>
            match env.decodeResult with
            | Except.error e =>
                if cancelledAt cancelAt 3 then Outcome.silent else Outcome.errored e
            | Except.ok imageData =>
                let segments := segmentDigits imageData
                if segments.length = 0 then
                  Outcome.errored
                    ("No digits detected. Try adjusting the image or preprocessing.")
                else
                  let results := classifySegments env.predict segments
                  Outcome.completed
                    ⟨results, combinedText results, env.elapsed, url⟩

/-- Black foreground pixel. -/
def blackPixel : Pixel := ⟨0, 0, 0, 255⟩

/-- Build a raster from a per-coordinate pixel function (row-major). -/
def mkImage (w h : ℕ) (f : ℕ → ℕ → Pixel) : ImageData :=
  ⟨w, h, (List.range (w * h)).map (fun i => f (i % w) (i / w))⟩

/-- A 20 × 20 white raster whose only foreground is a 3 × 3 speck. -/
def speckImg : ImageData :=
  mkImage 20 20 (fun x y =>
    if 8 ≤ x ∧ x ≤ 10 ∧ 8 ≤ y ∧ y ≤ 10 then blackPixel else whitePixel)

/-- A 10 × 21 raster with two 10 × 10 foreground blocks stacked vertically
(rows 0–9 and rows 11–20), separated by the white row 10; both components
share the left edge x = 0. -/
def twoStackImg : ImageData :=
  mkImage 10 21 (fun _ y => if y = 10 then whitePixel else blackPixel)

/-- A 20 × 12 raster with one 10 × 10 block flush against the left edge
(columns 0–9, rows 1–10); the raster leaves ample room to its right. -/
def leftFlushImg : ImageData :=
  mkImage 20 12 (fun x y =>
    if x ≤ 9 ∧ 1 ≤ y ∧ y ≤ 10 then blackPixel else whitePixel)

/-- A 12 × 12 raster with one 10 × 10 centred block (columns and rows 1–10). -/
def blockImg : ImageData :=
  mkImage 12 12 (fun x y =>
    if 1 ≤ x ∧ x ≤ 10 ∧ 1 ≤ y ∧ y ≤ 10 then blackPixel else whitePixel)

/-- A single-caller classifier environment in which nothing is persisted but
training succeeds, producing handle 42 whose forward pass puts mass 7/10 on
class 3. -/
def env0 : ClsEnv :=
  ⟨none, Except.ok 42,
   fun _ _ => Except.ok [0, 0, 0, 7/10, 0, 0, 0, 0, 0, 0]⟩

/-- A two-caller environment with an empty store; the k-th training run
produces handle 100 + k. -/
def env2 : ClsEnv2 :=
  ⟨none, fun k => 100 + k⟩

/-- A classifier stub the orchestrator environments use: every glyph
classifies as digit 3 with confidence 50. -/
def predC3 : SegmentedDigit → Except String DigitPrediction :=
  fun _ => Except.ok ⟨3, 50, [0, 0, 0, 1, 0, 0, 0, 0, 0, 0]⟩

/-- An all-successful `recognize` environment whose decoded raster holds the
two stacked glyphs of `twoStackImg` (so classification has two steps). -/
def envC3 : RecEnv :=
  ⟨Except.ok (), Except.ok ("url"), Except.ok twoStackImg, predC3, 17⟩

/-- An all-successful `recognize` environment whose decoded raster holds the
single glyph of `blockImg`. -/
def envW3 : RecEnv :=
  ⟨Except.ok (), Except.ok ("url"), Except.ok blockImg, predC3, 17⟩


/-! ## Theorems -/

theorem clamp_nonneg (x : ℚ) : 0 ≤ max 0 (min 255 x) :=
  le_max_left 0 _

theorem clamp_le_255 (x : ℚ) : max 0 (min 255 x) ≤ 255 :=
  max_le (by norm_num) (min_le_left _ _)

theorem ite_255_nonneg {c : Prop} [Decidable c] :
    0 ≤ (if c then (255 : ℚ) else 0) := by
  split <;> norm_num

theorem ite_255_le {c : Prop} [Decidable c] :
    (if c then (255 : ℚ) else 0) ≤ 255 := by
  split <;> norm_num

/-- Claim C8: for every pixel and every `FilterConfig`, the filter loop
applies contrast then brightness per channel as
`clamp(((v - 128) * contrast + 128) * brightness, 0, 255)`, identically to
R, G and B (after grayscale replacement when enabled), with alpha untouched,
and every output sample lies in [0, 255]. -/
theorem claim_C8 (cfg : FilterConfig) (p : Pixel)
    (ha : 0 ≤ p.a ∧ p.a ≤ 255) :
    (cfg.threshold = none →
      applyFilters cfg p =
        ⟨specContrastBrightness cfg.contrast cfg.brightness
            (if cfg.grayscale then lumaOf p else p.r),
         specContrastBrightness cfg.contrast cfg.brightness
            (if cfg.grayscale then lumaOf p else p.g),
         specContrastBrightness cfg.contrast cfg.brightness
            (if cfg.grayscale then lumaOf p else p.b),
         p.a⟩) ∧
    (0 ≤ (applyFilters cfg p).r ∧ (applyFilters cfg p).r ≤ 255 ∧
     0 ≤ (applyFilters cfg p).g ∧ (applyFilters cfg p).g ≤ 255 ∧
     0 ≤ (applyFilters cfg p).b ∧ (applyFilters cfg p).b ≤ 255 ∧
     0 ≤ (applyFilters cfg p).a ∧ (applyFilters cfg p).a ≤ 255 ∧
     (applyFilters cfg p).a = p.a) := by
  obtain ⟨sc, gs, ct, br, sh, th⟩ := cfg
  constructor
  · intro h
    cases h
    rfl
  · cases th with
    | none =>
        exact ⟨clamp_nonneg _, clamp_le_255 _, clamp_nonneg _, clamp_le_255 _,
          clamp_nonneg _, clamp_le_255 _, ha.1, ha.2, rfl⟩
    | some t =>
        exact ⟨ite_255_nonneg, ite_255_le, ite_255_nonneg, ite_255_le,
          ite_255_nonneg, ite_255_le, ha.1, ha.2, rfl⟩

/-- Witness for claim C8 at a concrete configuration and pixel. -/
theorem claim_C8_witness :
    0 ≤ (applyFilters ⟨3, true, 5/2, 6/5, false, none⟩ ⟨10, 20, 30, 255⟩).r ∧
    (applyFilters ⟨3, true, 5/2, 6/5, false, none⟩ ⟨10, 20, 30, 255⟩).r ≤ 255 ∧
    0 ≤ (applyFilters ⟨3, true, 5/2, 6/5, false, none⟩ ⟨10, 20, 30, 255⟩).g ∧
    (applyFilters ⟨3, true, 5/2, 6/5, false, none⟩ ⟨10, 20, 30, 255⟩).g ≤ 255 ∧
    0 ≤ (applyFilters ⟨3, true, 5/2, 6/5, false, none⟩ ⟨10, 20, 30, 255⟩).b ∧
    (applyFilters ⟨3, true, 5/2, 6/5, false, none⟩ ⟨10, 20, 30, 255⟩).b ≤ 255 ∧
    0 ≤ (applyFilters ⟨3, true, 5/2, 6/5, false, none⟩ ⟨10, 20, 30, 255⟩).a ∧
    (applyFilters ⟨3, true, 5/2, 6/5, false, none⟩ ⟨10, 20, 30, 255⟩).a ≤ 255 ∧
    (applyFilters ⟨3, true, 5/2, 6/5, false, none⟩ ⟨10, 20, 30, 255⟩).a = 255 :=
  (claim_C8 ⟨3, true, 5/2, 6/5, false, none⟩ ⟨10, 20, 30, 255⟩ (by norm_num)).2

/-- Claim C9: with a threshold set, the filter loop binarizes by comparing
the average of the (post contrast/brightness) R, G, B channels against the
threshold — the pixel becomes (255,255,255) when the average exceeds it and
(0,0,0) otherwise — so every resulting pixel is pure black or pure white. -/
theorem claim_C9 (cfg : FilterConfig) (t : ℚ) (p : Pixel)
    (h : cfg.threshold = some t) :
    applyFilters cfg p =
      ⟨if specAvg cfg p > t then 255 else 0,
       if specAvg cfg p > t then 255 else 0,
       if specAvg cfg p > t then 255 else 0,
       p.a⟩ ∧
    ((applyFilters cfg p).r = 0 ∧ (applyFilters cfg p).g = 0 ∧
        (applyFilters cfg p).b = 0 ∨
     (applyFilters cfg p).r = 255 ∧ (applyFilters cfg p).g = 255 ∧
        (applyFilters cfg p).b = 255) := by
  obtain ⟨sc, gs, ct, br, sh, th⟩ := cfg
  cases h
  have h1 : applyFilters ⟨sc, gs, ct, br, sh, some t⟩ p =
      ⟨if specAvg ⟨sc, gs, ct, br, sh, some t⟩ p > t then 255 else 0,
       if specAvg ⟨sc, gs, ct, br, sh, some t⟩ p > t then 255 else 0,
       if specAvg ⟨sc, gs, ct, br, sh, some t⟩ p > t then 255 else 0,
       p.a⟩ := rfl
  refine ⟨h1, ?_⟩
  rw [h1]
  by_cases hc : specAvg ⟨sc, gs, ct, br, sh, some t⟩ p > t
  · right
    simp [hc]
  · left
    simp [hc]

/-- Witness for claim C9 at a concrete configuration and pixel. -/
theorem claim_C9_witness :
    (applyFilters ⟨3, true, 5/2, 6/5, false, some 140⟩ ⟨200, 200, 200, 255⟩).r = 0 ∧
      (applyFilters ⟨3, true, 5/2, 6/5, false, some 140⟩ ⟨200, 200, 200, 255⟩).g = 0 ∧
      (applyFilters ⟨3, true, 5/2, 6/5, false, some 140⟩ ⟨200, 200, 200, 255⟩).b = 0 ∨
    (applyFilters ⟨3, true, 5/2, 6/5, false, some 140⟩ ⟨200, 200, 200, 255⟩).r = 255 ∧
      (applyFilters ⟨3, true, 5/2, 6/5, false, some 140⟩ ⟨200, 200, 200, 255⟩).g = 255 ∧
      (applyFilters ⟨3, true, 5/2, 6/5, false, some 140⟩ ⟨200, 200, 200, 255⟩).b = 255 :=
  (claim_C9 ⟨3, true, 5/2, 6/5, false, some 140⟩ 140 ⟨200, 200, 200, 255⟩ rfl).2

unseal Rat.add Rat.sub Rat.mul Rat.inv Rat.ofScientific in
/-- Counterexample for claim C1: starting with no cached model handle (the
state `disposeModel` leaves), `predictDigit` does not fail with any error —
it lazily runs the load-or-train path inside the call (the freshly trained
handle 42 ends up cached) and returns a successful prediction. -/
theorem claim_C1_counterexample :
    predictDigit env0 (disposeModel (some 5)) [1, 2] =
      (some 42, Except.ok ⟨3, 70, [0, 0, 0, 7/10, 0, 0, 0, 0, 0, 0]⟩) :=
  rfl

/-- Claim C1 (amended): with no cached handle, `predictDigit` lazily triggers
the load-or-train path (`loadMNISTModel`) inside the call: it fails exactly
when that initialization fails, and when initialization yields a handle the
call caches it and proceeds to the forward pass. -/
theorem claim_C1_amended (env : ClsEnv) (inp : List ℚ) :
    (∀ e, (loadMNISTModel env none).2 = Except.error e →
        predictDigit env none inp =
          ((loadMNISTModel env none).1, Except.error e)) ∧
    (∀ m, (loadMNISTModel env none).2 = Except.ok m →
        (loadMNISTModel env none).1 = some m ∧
        predictDigit env none inp =
          (some m,
           (env.forward m inp).map (fun probs =>
             ⟨(indexOfMaxQ probs : ℤ),
              probs.getD (indexOfMaxQ probs) 0 * 100, probs⟩))) := by
  obtain ⟨st, tr, fw⟩ := env
  cases st with
  | some m0 =>
      constructor
      · intro e he
        simp [loadMNISTModel] at he
      · intro m hm
        simp only [loadMNISTModel] at hm
        cases hm
        refine ⟨rfl, ?_⟩
        cases hf : fw m0 inp <;>
          simp [predictDigit, loadMNISTModel, hf, Except.map]
  | none =>
      cases tr with
      | ok m1 =>
          constructor
          · intro e he
            simp [loadMNISTModel] at he
          · intro m hm
            simp only [loadMNISTModel] at hm
            cases hm
            refine ⟨rfl, ?_⟩
            cases hf : fw m1 inp <;>
              simp [predictDigit, loadMNISTModel, hf, Except.map]
      | error e1 =>
          constructor
          · intro e he
            simp only [loadMNISTModel] at he
            cases he
            simp [predictDigit, loadMNISTModel]
          · intro m hm
            simp [loadMNISTModel] at hm

/-- Witness for claim C1 (amended) at the concrete environment `env0`. -/
theorem claim_C1_witness :
    (loadMNISTModel env0 none).1 = some 42 ∧
    predictDigit env0 none [1, 2] =
      (some 42,
       (env0.forward 42 [1, 2]).map (fun probs =>
         ⟨(indexOfMaxQ probs : ℤ),
          probs.getD (indexOfMaxQ probs) 0 * 100, probs⟩)) :=
  (claim_C1_amended env0 [1, 2]).2 42 rfl

/-- Counterexample for claim C2: under the racing schedule both callers pass
the `if (model)` check and the store load before either training completes,
so the load-or-train path executes twice (`trainCount = 2`) and the two
callers resolve to different handles (100 and 101). -/
theorem claim_C2_counterexample :
    (runSched env2 racySched (initSys env2)).trainCount = 2 ∧
    (runSched env2 racySched (initSys env2)).t0 = TPC.done 100 ∧
    (runSched env2 racySched (initSys env2)).t1 = TPC.done 101 ∧
    (100 : Model) ≠ 101 :=
  ⟨rfl, rfl, rfl, by decide⟩

/-- Claim C2 (amended): `loadMNISTModel` deduplicates only initializations
that have already completed: in a sequential schedule the load-or-train path
runs at most once and both callers resolve to the same handle, which is the
cached one; overlapping calls from the absent state are not single-flighted
(see the counterexample) and may each run load-or-train. -/
theorem claim_C2_amended (env : ClsEnv2) :
    (runSched env seqSched (initSys env)).trainCount ≤ 1 ∧
    ∃ m, (runSched env seqSched (initSys env)).t0 = TPC.done m ∧
         (runSched env seqSched (initSys env)).t1 = TPC.done m ∧
         (runSched env seqSched (initSys env)).model = some m := by
  obtain ⟨st, tr⟩ := env
  cases st with
  | some m0 => exact ⟨Nat.zero_le 1, m0, rfl, rfl, rfl⟩
  | none => exact ⟨le_refl 1, tr 0, rfl, rfl, rfl⟩

theorem string_join_length (l : List String) :
    (String.join l).length = (l.map String.length).sum := by
  have key : ∀ (l2 : List String) (acc : String),
      (l2.foldl (fun r s => r ++ s) acc).length =
        acc.length + (l2.map String.length).sum := by
    intro l2
    induction l2 with
    | nil => intro acc; simp
    | cons x xs ih =>
        intro acc
        simp [List.foldl_cons, ih, String.length_append]
        omega
  simpa [String.join] using key l ("")

theorem toString_digit_length (d : ℤ) (h0 : 0 ≤ d) (h9 : d ≤ 9) :
    (toString d).length = 1 := by
  interval_cases d <;> rfl

theorem classifySegments_eq_map
    (predict : SegmentedDigit → Except String DigitPrediction)
    (segs : List SegmentedDigit) :
    classifySegments predict segs =
      segs.map (fun s =>
        match predict s with
        | Except.ok p => ⟨p.digit, p.confidence, s.bbox⟩
        | Except.error _ => ⟨-1, 0, s.bbox⟩) := by
  induction segs with
  | nil => rfl
  | cons s rest ih => simp [classifySegments, ih]

/-- Claim C4: a per-glyph inference failure does not abort the batch — the
failing glyph is recorded as digit -1 with confidence 0 while every other
glyph is still classified independently (the result is the pointwise image of
the segment list), and `combinedText` concatenates one character per segment
(a digit character or `?`), so its length equals the number of segments. -/
theorem claim_C4 (predict : SegmentedDigit → Except String DigitPrediction)
    (segs : List SegmentedDigit)
    (hd : ∀ s p, predict s = Except.ok p → 0 ≤ p.digit ∧ p.digit ≤ 9) :
    classifySegments predict segs =
      segs.map (fun s =>
        match predict s with
        | Except.ok p => ⟨p.digit, p.confidence, s.bbox⟩
        | Except.error _ => ⟨-1, 0, s.bbox⟩) ∧
    (combinedText (classifySegments predict segs)).length = segs.length := by
  refine ⟨classifySegments_eq_map predict segs, ?_⟩
  rw [combinedText, string_join_length, List.map_map]
  induction segs with
  | nil => rfl
  | cons s rest ih =>
      rw [classifySegments]
      cases hp : predict s with
      | ok p =>
          have hb := hd s p hp
          simp only [List.map_cons, List.sum_cons, List.length_cons,
            Function.comp_apply, if_pos hb.1]
          rw [toString_digit_length p.digit hb.1 hb.2, ih]
          omega
      | error e =>
          simp only [List.map_cons, List.sum_cons, List.length_cons,
            Function.comp_apply]
          rw [if_neg (by norm_num), ih]
          show 1 + rest.length = rest.length + 1
          omega

/-- Witness for claim C4: two segments, the first of which fails inference;
the failing one is recorded as (-1, 0), the second is still classified, and
the combined text has one character per segment. -/
theorem claim_C4_witness :
    classifySegments
        (fun s => if s.bbox.x = 0 then Except.error ("InferenceFailed")
                  else Except.ok ⟨3, 50, [1]⟩)
        [⟨⟨0, 0, 1, 1⟩, ⟨1, 1, whitePixel, 0, 0, 1, 1, 0, 0⟩⟩,
         ⟨⟨1, 0, 1, 1⟩, ⟨1, 1, whitePixel, 1, 0, 1, 1, 0, 0⟩⟩] =
      ([⟨⟨0, 0, 1, 1⟩, ⟨1, 1, whitePixel, 0, 0, 1, 1, 0, 0⟩⟩,
        ⟨⟨1, 0, 1, 1⟩, ⟨1, 1, whitePixel, 1, 0, 1, 1, 0, 0⟩⟩] :
          List SegmentedDigit).map
        (fun s =>
          match (if s.bbox.x = 0 then Except.error ("InferenceFailed")
                 else Except.ok (⟨3, 50, [1]⟩ : DigitPrediction)) with
          | Except.ok p => (⟨p.digit, p.confidence, s.bbox⟩ : DigitResult)
          | Except.error _ => ⟨-1, 0, s.bbox⟩) ∧
    (combinedText (classifySegments
        (fun s => if s.bbox.x = 0 then Except.error ("InferenceFailed")
                  else Except.ok ⟨3, 50, [1]⟩)
        [⟨⟨0, 0, 1, 1⟩, ⟨1, 1, whitePixel, 0, 0, 1, 1, 0, 0⟩⟩,
         ⟨⟨1, 0, 1, 1⟩, ⟨1, 1, whitePixel, 1, 0, 1, 1, 0, 0⟩⟩])).length = 2 :=
  claim_C4
    (fun s => if s.bbox.x = 0 then Except.error ("InferenceFailed")
              else Except.ok ⟨3, 50, [1]⟩)
    [⟨⟨0, 0, 1, 1⟩, ⟨1, 1, whitePixel, 0, 0, 1, 1, 0, 0⟩⟩,
     ⟨⟨1, 0, 1, 1⟩, ⟨1, 1, whitePixel, 1, 0, 1, 1, 0, 0⟩⟩]
    (by
      intro s p hp
      by_cases h : s.bbox.x = 0
      · simp [h] at hp
      · simp [h] at hp
        subst hp
        exact ⟨by decide, by decide⟩)

theorem qarea_iff (a : ℤ) (T : ℕ) :
    ((a : ℚ) > (T : ℚ) * 0.9) ↔ 10 * a > 9 * (T : ℤ) := by
  rw [gt_iff_lt, gt_iff_lt]
  have key : ((T : ℚ) * 0.9 < a) ↔ ((9 * T : ℤ) : ℚ) < ((10 * a : ℤ) : ℚ) := by
    push_cast
    constructor <;> intro h <;> linarith
  rw [key]
  exact Int.cast_lt

set_option maxRecDepth 200000 in
unseal Rat.add Rat.sub Rat.mul Rat.inv Rat.ofScientific in
theorem speck_segments : segmentDigits speckImg = [] := by
  decide

/-- Claim C5: a flood-filled component is rejected (no bounding box emitted)
exactly when its pixel count is below 50, or its bounding area exceeds 90%
of the raster area, or either bounding dimension is below 10; consequently
the raster whose only foreground is a single 3×3 speck yields zero
segments. -/
theorem claim_C5 :
    (∀ (img : ImageData) (sx sy : ℕ) (visited : Finset ℕ)
        (minX maxX minY maxY : ℤ) (cnt : ℕ),
      (ffLoop img (ffFuel img) [((sx : ℤ), (sy : ℤ))] visited
          sx sx sy sy 0).minX = minX →
      (ffLoop img (ffFuel img) [((sx : ℤ), (sy : ℤ))] visited
          sx sx sy sy 0).maxX = maxX →
      (ffLoop img (ffFuel img) [((sx : ℤ), (sy : ℤ))] visited
          sx sx sy sy 0).minY = minY →
      (ffLoop img (ffFuel img) [((sx : ℤ), (sy : ℤ))] visited
          sx sx sy sy 0).maxY = maxY →
      (ffLoop img (ffFuel img) [((sx : ℤ), (sy : ℤ))] visited
          sx sx sy sy 0).count = cnt →
      ((floodFill img sx sy visited).2 = none ↔
        (cnt < 50 ∨
         10 * ((maxX - minX + 1) * (maxY - minY + 1)) >
           9 * ((img.width * img.height : ℕ) : ℤ) ∨
         maxX - minX + 1 < 10 ∨ maxY - minY + 1 < 10))) ∧
    segmentDigits speckImg = [] := by
  constructor
  · intro img sx sy visited minX maxX minY maxY cnt h1 h2 h3 h4 h5
    subst h1
    subst h2
    subst h3
    subst h4
    subst h5
    simp only [floodFill]
    generalize ffLoop img (ffFuel img) [((sx : ℤ), (sy : ℤ))] visited
      sx sx sy sy 0 = st
    have harea := qarea_iff ((st.maxX - st.minX + 1) * (st.maxY - st.minY + 1))
      (img.width * img.height)
    have hCD : (st.count < 50 ∨
        ((((st.maxX - st.minX + 1) * (st.maxY - st.minY + 1) : ℤ) : ℚ) >
          ((img.width * img.height : ℕ) : ℚ) * 0.9) ∨
        st.maxX - st.minX + 1 < 10 ∨ st.maxY - st.minY + 1 < 10) ↔
        (st.count < 50 ∨
         10 * ((st.maxX - st.minX + 1) * (st.maxY - st.minY + 1)) >
           9 * ((img.width * img.height : ℕ) : ℤ) ∨
         st.maxX - st.minX + 1 < 10 ∨ st.maxY - st.minY + 1 < 10) := by
      rw [harea]
    split_ifs with h
    · exact iff_of_true rfl (hCD.mp h)
    · exact iff_of_false (by simp) (fun hD => h (hCD.mpr hD))
  · exact speck_segments

/-- Witness for claim C5 at the speck raster's flood fill: the component's
pixel count is 9 < 50, so it is rejected. -/
theorem claim_C5_witness :
    (floodFill speckImg 8 8 ∅).2 = none ↔
      ((9 : ℕ) < 50 ∨
       10 * (((10 : ℤ) - 8 + 1) * ((10 : ℤ) - 8 + 1)) >
         9 * ((speckImg.width * speckImg.height : ℕ) : ℤ) ∨
       (10 : ℤ) - 8 + 1 < 10 ∨ (10 : ℤ) - 8 + 1 < 10) :=
  claim_C5.1 speckImg 8 8 ∅ 8 10 8 10 9
    (by decide) (by decide) (by decide) (by decide) (by decide)

set_option maxRecDepth 200000 in
unseal Rat.add Rat.sub Rat.mul Rat.inv Rat.ofScientific in
theorem twoStack_xs :
    (segmentDigits twoStackImg).map (fun s => s.bbox.x) = [0, 0] := by
  decide

/-- Counterexample for claim C6: the two stacked glyphs of `twoStackImg`
share the left edge x = 0, so `segmentDigits` returns two segments whose
bounding-box left edges are equal — the output is not in strictly ascending
x-order. -/
theorem claim_C6_counterexample :
    ¬ List.Pairwise (fun a b : SegmentedDigit => a.bbox.x < b.bbox.x)
      (segmentDigits twoStackImg) := by
  intro hs
  have h2 : List.Pairwise (fun a b : ℤ => a < b)
      ((segmentDigits twoStackImg).map (fun s => s.bbox.x)) :=
    List.pairwise_map.mpr hs
  rw [twoStack_xs] at h2
  simp at h2

/-- Claim C6 (amended): `segmentDigits` is deterministic (it is a pure
function, so repeated runs on the same raster give the same segments), and
its output is sorted by bounding-box left edge in non-decreasing (not
necessarily strictly ascending — ties are possible) x-order. -/
theorem claim_C6_amended (img : ImageData) :
    segmentDigits img = segmentDigits img ∧
    List.Pairwise (fun a b : SegmentedDigit => a.bbox.x ≤ b.bbox.x)
      (segmentDigits img) := by
  refine ⟨rfl, ?_⟩
  show List.Pairwise _
    ((sortByX (scanLoop img (imageCoords img) ∅ []).2).map (extractSegment img))
  apply List.pairwise_map.mpr
  have hs : List.Sorted (fun a b : BoundingBox => a.x ≤ b.x)
      (sortByX (scanLoop img (imageCoords img) ∅ []).2) :=
    @List.sorted_insertionSort BoundingBox (fun a b => a.x ≤ b.x)
      (fun a b => Int.decLe a.x b.x)
      ⟨fun a b => Int.le_total a.x b.x⟩
      ⟨fun _ _ _ h1 h2 => le_trans h1 h2⟩
      (scanLoop img (imageCoords img) ∅ []).2
  refine List.Pairwise.imp ?_ hs
  intro a b h
  show max 0 (a.x - 5) ≤ max 0 (b.x - 5)
  exact max_le_max le_rfl (sub_le_sub_right h 5)

set_option maxRecDepth 200000 in
unseal Rat.add Rat.sub Rat.mul Rat.inv Rat.ofScientific in
theorem leftFlush_scan :
    (scanLoop leftFlushImg (imageCoords leftFlushImg) ∅ []).2 =
      [⟨0, 1, 10, 10⟩] := by
  decide

set_option maxRecDepth 200000 in
unseal Rat.add Rat.sub Rat.mul Rat.inv Rat.ofScientific in
theorem leftFlush_segs :
    segmentDigits leftFlushImg =
      [extractSegment leftFlushImg ⟨0, 1, 10, 10⟩] := by
  decide

/-- Counterexample for claim C7: in `leftFlushImg` the single flood-filled
component is ⟨0, 1, 10, 10⟩, flush against the left raster edge.  The code
emits the bounding box ⟨0, 0, 20, 12⟩ — its right edge is 20, although the
component box padded by 5 on every side and clamped to the raster is
⟨0, 0, 15, 12⟩ (right edge 15, with room to spare in the 20-wide raster): the
5 pixels of left padding lost to the clamp are re-applied on the right. -/
theorem claim_C7_counterexample :
    (scanLoop leftFlushImg (imageCoords leftFlushImg) ∅ []).2 =
      [⟨0, 1, 10, 10⟩] ∧
    (segmentDigits leftFlushImg).map (fun s => s.bbox) = [⟨0, 0, 20, 12⟩] ∧
    specPadClamp leftFlushImg ⟨0, 1, 10, 10⟩ = ⟨0, 0, 15, 12⟩ ∧
    (⟨0, 0, 20, 12⟩ : BoundingBox) ≠ ⟨0, 0, 15, 12⟩ := by
  refine ⟨leftFlush_scan, ?_, by rfl, by decide⟩
  rw [leftFlush_segs]
  rfl

/-- Claim C7 (amended): every emitted segment's patch is a square canvas
whose side is the larger of the padded width and height, white-filled, with
the padded region drawn centred; its bounding box comes from a component box
by padding 5 left/top clamped at the raster origin, with width and height the
component's plus 10, clamped to what remains of the raster from the clamped
corner (so a component flush against the left/top edge keeps total padding 10
in that dimension, extending right/down instead). -/
theorem claim_C7_amended (img : ImageData) (s : SegmentedDigit)
    (h : s ∈ segmentDigits img) :
    s.patch.width = max s.bbox.width s.bbox.height ∧
    s.patch.height = s.patch.width ∧
    s.patch.fill = whitePixel ∧
    s.patch.srcX = s.bbox.x ∧
    s.patch.srcY = s.bbox.y ∧
    s.patch.srcW = s.bbox.width ∧
    s.patch.srcH = s.bbox.height ∧
    s.patch.destX = ((s.patch.width - s.bbox.width : ℤ) : ℚ) / 2 ∧
    s.patch.destY = ((s.patch.height - s.bbox.height : ℤ) : ℚ) / 2 ∧
    ∃ c : BoundingBox,
      s.bbox.x = max 0 (c.x - 5) ∧
      s.bbox.y = max 0 (c.y - 5) ∧
      s.bbox.width = min ((img.width : ℤ) - s.bbox.x) (c.width + 5 * 2) ∧
      s.bbox.height = min ((img.height : ℤ) - s.bbox.y) (c.height + 5 * 2) := by
  rcases List.mem_map.1 h with ⟨c, hc, rfl⟩
  exact ⟨rfl, rfl, rfl, rfl, rfl, rfl, rfl, rfl, rfl, c, rfl, rfl, rfl, rfl⟩

set_option maxRecDepth 200000 in
unseal Rat.add Rat.sub Rat.mul Rat.inv Rat.ofScientific in
/-- Witness for claim C7 (amended) at the emitted segment of
`leftFlushImg`. -/
theorem claim_C7_witness :
    (extractSegment leftFlushImg ⟨0, 1, 10, 10⟩).patch.width =
      max (extractSegment leftFlushImg ⟨0, 1, 10, 10⟩).bbox.width
        (extractSegment leftFlushImg ⟨0, 1, 10, 10⟩).bbox.height ∧
    (extractSegment leftFlushImg ⟨0, 1, 10, 10⟩).patch.height =
      (extractSegment leftFlushImg ⟨0, 1, 10, 10⟩).patch.width ∧
    (extractSegment leftFlushImg ⟨0, 1, 10, 10⟩).patch.fill = whitePixel ∧
    (extractSegment leftFlushImg ⟨0, 1, 10, 10⟩).patch.srcX =
      (extractSegment leftFlushImg ⟨0, 1, 10, 10⟩).bbox.x ∧
    (extractSegment leftFlushImg ⟨0, 1, 10, 10⟩).patch.srcY =
      (extractSegment leftFlushImg ⟨0, 1, 10, 10⟩).bbox.y ∧
    (extractSegment leftFlushImg ⟨0, 1, 10, 10⟩).patch.srcW =
      (extractSegment leftFlushImg ⟨0, 1, 10, 10⟩).bbox.width ∧
    (extractSegment leftFlushImg ⟨0, 1, 10, 10⟩).patch.srcH =
      (extractSegment leftFlushImg ⟨0, 1, 10, 10⟩).bbox.height ∧
    (extractSegment leftFlushImg ⟨0, 1, 10, 10⟩).patch.destX =
      (((extractSegment leftFlushImg ⟨0, 1, 10, 10⟩).patch.width -
          (extractSegment leftFlushImg ⟨0, 1, 10, 10⟩).bbox.width : ℤ) : ℚ) / 2 ∧
    (extractSegment leftFlushImg ⟨0, 1, 10, 10⟩).patch.destY =
      (((extractSegment leftFlushImg ⟨0, 1, 10, 10⟩).patch.height -
          (extractSegment leftFlushImg ⟨0, 1, 10, 10⟩).bbox.height : ℤ) : ℚ) / 2 ∧
    ∃ c : BoundingBox,
      (extractSegment leftFlushImg ⟨0, 1, 10, 10⟩).bbox.x = max 0 (c.x - 5) ∧
      (extractSegment leftFlushImg ⟨0, 1, 10, 10⟩).bbox.y = max 0 (c.y - 5) ∧
      (extractSegment leftFlushImg ⟨0, 1, 10, 10⟩).bbox.width =
        min ((leftFlushImg.width : ℤ) -
          (extractSegment leftFlushImg ⟨0, 1, 10, 10⟩).bbox.x) (c.width + 5 * 2) ∧
      (extractSegment leftFlushImg ⟨0, 1, 10, 10⟩).bbox.height =
        min ((leftFlushImg.height : ℤ) -
          (extractSegment leftFlushImg ⟨0, 1, 10, 10⟩).bbox.y) (c.height + 5 * 2) :=
  claim_C7_amended leftFlushImg (extractSegment leftFlushImg ⟨0, 1, 10, 10⟩)
    (by rw [leftFlush_segs]; exact List.mem_singleton.mpr rfl)

set_option maxRecDepth 200000 in
unseal Rat.add Rat.sub Rat.mul Rat.inv Rat.ofScientific in
/-- Counterexample for claim C3: with two glyphs to classify, raising the
cancellation signal at boundary 5 — after the first glyph's inference and
before the second, i.e. mid-classification — does not stop the pipeline:
`recognize` still delivers a result (`onComplete` is invoked), because the
source checks `cancelled` only once, right after the model load. -/
theorem claim_C3_counterexample :
    cancelledAt (some 5) 4 = false ∧ cancelledAt (some 5) 5 = true ∧
    recognize envC3 (some 5) ≠ Outcome.silent := by
  refine ⟨rfl, rfl, ?_⟩
  decide

/-- Claim C3 (amended): the cancellation flag is consulted only at the
boundary after the model load (and in the error handler): if it is raised by
then, `recognize` stops silently with neither callback; but if it is raised
at any later boundary — including mid-classification — a run whose external
steps all succeed and whose raster contains at least one segment still runs
to completion and invokes `onComplete` with every glyph's prediction. -/
theorem claim_C3_amended (env : RecEnv) (cancelAt : Option ℕ) :
    (env.loadModel = Except.ok () → cancelledAt cancelAt 1 = true →
        recognize env cancelAt = Outcome.silent) ∧
    (∀ url img, env.loadModel = Except.ok () →
        env.preprocessResult = Except.ok url →
        env.decodeResult = Except.ok img →
        cancelledAt cancelAt 1 = false →
        segmentDigits img ≠ [] →
        recognize env cancelAt =
          Outcome.completed
            ⟨classifySegments env.predict (segmentDigits img),
             combinedText (classifySegments env.predict (segmentDigits img)),
             env.elapsed, url⟩) := by
  constructor
  · intro hload hc
    simp [recognize, hload, hc]
  · intro url img hload hpre hdec hc hseg
    simp [recognize, hload, hpre, hdec, hc, List.length_eq_zero, hseg]

set_option maxRecDepth 200000 in
unseal Rat.add Rat.sub Rat.mul Rat.inv Rat.ofScientific in
theorem blockImg_nonempty : segmentDigits blockImg ≠ [] := by
  decide

/-- Witness for claim C3 (amended): an uncancelled all-successful run over
the single-glyph raster completes with the classified glyph. -/
theorem claim_C3_witness :
    recognize envW3 none =
      Outcome.completed
        ⟨classifySegments envW3.predict (segmentDigits blockImg),
         combinedText (classifySegments envW3.predict (segmentDigits blockImg)),
         17, "url"⟩ :=
  (claim_C3_amended envW3 none).2 ("url") blockImg rfl rfl rfl rfl blockImg_nonempty

theorem idx_mem_range (W H : ℕ) (x y : ℤ)
    (hx0 : 0 ≤ x) (hxW : x < (W : ℤ)) (hy0 : 0 ≤ y) (hyH : y < (H : ℤ)) :
    (y * W + x).toNat ∈ Finset.range (W * H) := by
  rw [Finset.mem_range]
  have hnn : 0 ≤ y * W + x := by positivity
  have hlt : y * (W : ℤ) + x < ((W * H : ℕ) : ℤ) := by
    push_cast
    nlinarith
  omega

/-- One extra unit of fuel never changes the flood-fill loop's result once
the fuel dominates `stack.length + 9 * (unvisited raster cells)`: each
iteration pops one entry, and only a fresh in-bounds foreground pixel (of
which at most the unvisited count remain) pushes its 8 neighbours. -/
theorem ffLoop_cons (img : ImageData) (fuel : ℕ) (x y : ℤ)
    (rest : List (ℤ × ℤ)) (visited : Finset ℕ)
    (minX maxX minY maxY : ℤ) (cnt : ℕ) :
    ffLoop img (fuel + 1) ((x, y) :: rest) visited minX maxX minY maxY cnt =
      if x < 0 ∨ (img.width : ℤ) ≤ x ∨ y < 0 ∨ (img.height : ℤ) ≤ y then
        ffLoop img fuel rest visited minX maxX minY maxY cnt
      else if (y * img.width + x).toNat ∈ visited ∨ ¬ isForegroundZ img x y then
        ffLoop img fuel rest visited minX maxX minY maxY cnt
      else
        ffLoop img fuel (neighbors x y ++ rest)
          (insert (y * img.width + x).toNat visited)
          (min minX x) (max maxX x) (min minY y) (max maxY y) (cnt + 1) :=
  rfl

theorem ffLoop_succ_stable (img : ImageData) :
    ∀ (f : ℕ) (stack : List (ℤ × ℤ)) (visited : Finset ℕ)
      (minX maxX minY maxY : ℤ) (cnt : ℕ),
      stack.length +
        9 * ((Finset.range (img.width * img.height) \ visited).card) ≤ f →
      ffLoop img (f + 1) stack visited minX maxX minY maxY cnt =
        ffLoop img f stack visited minX maxX minY maxY cnt := by
  intro f
  induction f with
  | zero =>
      intro stack visited minX maxX minY maxY cnt h
      cases stack with
      | nil => rfl
      | cons a l => simp at h
  | succ f ih =>
      intro stack visited minX maxX minY maxY cnt h
      cases stack with
      | nil => rfl
      | cons p rest =>
          obtain ⟨x, y⟩ := p
          rw [List.length_cons] at h
          rw [ffLoop_cons img (f + 1), ffLoop_cons img f]
          split_ifs with h1 h2
          · exact ih rest visited _ _ _ _ _ (by omega)
          · exact ih rest visited _ _ _ _ _ (by omega)
          · apply ih
            push_neg at h1
            push_neg at h2
            have hmem : (y * img.width + x).toNat ∈
                Finset.range (img.width * img.height) \ visited := by
              rw [Finset.mem_sdiff]
              exact ⟨idx_mem_range img.width img.height x y
                h1.1 h1.2.1 h1.2.2.1 h1.2.2.2, h2.1⟩
            have hpos : 0 < (Finset.range (img.width * img.height) \
                visited).card :=
              Finset.card_pos.mpr ⟨_, hmem⟩
            have hcard : (Finset.range (img.width * img.height) \
                insert ((y * img.width + x).toNat) visited).card =
                (Finset.range (img.width * img.height) \ visited).card - 1 := by
              rw [Finset.sdiff_insert, Finset.card_erase_of_mem hmem]
            have hlen : (neighbors x y ++ rest).length = rest.length + 8 := by
              simp [neighbors]
            rw [hlen, hcard]
            omega

/-- Any two fuels at or above the canonical bound give the same flood-fill
result; in particular `ffFuel` (which dominates the bound for the seed stack
of length 1) is always enough, so the out-of-fuel fallback in `ffLoop` is
never observed by `floodFill`. -/
theorem ffLoop_fuel_stable (img : ImageData) (f1 f2 : ℕ)
    (stack : List (ℤ × ℤ)) (visited : Finset ℕ)
    (minX maxX minY maxY : ℤ) (cnt : ℕ)
    (h1 : stack.length +
      9 * ((Finset.range (img.width * img.height) \ visited).card) ≤ f1)
    (h2 : stack.length +
      9 * ((Finset.range (img.width * img.height) \ visited).card) ≤ f2) :
    ffLoop img f1 stack visited minX maxX minY maxY cnt =
      ffLoop img f2 stack visited minX maxX minY maxY cnt := by
  have key : ∀ (b k : ℕ),
      stack.length +
        9 * ((Finset.range (img.width * img.height) \ visited).card) ≤ b →
      ffLoop img (b + k) stack visited minX maxX minY maxY cnt =
        ffLoop img b stack visited minX maxX minY maxY cnt := by
    intro b k hb
    induction k with
    | zero => rfl
    | succ k ihk =>
        have : b + (k + 1) = (b + k) + 1 := by omega
        rw [this, ffLoop_succ_stable img (b + k) stack visited
          minX maxX minY maxY cnt (by omega), ihk]
  have e1 : f1 = (stack.length +
      9 * ((Finset.range (img.width * img.height) \ visited).card)) +
      (f1 - (stack.length +
        9 * ((Finset.range (img.width * img.height) \ visited).card))) := by
    omega
  have e2 : f2 = (stack.length +
      9 * ((Finset.range (img.width * img.height) \ visited).card)) +
      (f2 - (stack.length +
        9 * ((Finset.range (img.width * img.height) \ visited).card))) := by
    omega
  rw [e1, e2, key _ _ (le_refl _), key _ _ (le_refl _)]

/-- The fuel `floodFill` passes is above the bound for its seed stack. -/
theorem ffFuel_sufficient (img : ImageData) (visited : Finset ℕ)
    (sx sy : ℤ) :
    [(sx, sy)].length +
      9 * ((Finset.range (img.width * img.height) \ visited).card) ≤
      ffFuel img := by
  have hcard : (Finset.range (img.width * img.height) \ visited).card ≤
      img.width * img.height := by
    calc (Finset.range (img.width * img.height) \ visited).card
        ≤ (Finset.range (img.width * img.height)).card :=
          Finset.card_le_card (Finset.sdiff_subset)
      _ = img.width * img.height := Finset.card_range _
  simp only [List.length_singleton, ffFuel]
  omega
